import Mathlib

/-!
Verification of the repository-snapshot builder in `src/utils.py`.

The development shallowly embeds the five components of the snapshot
builder: the URL parser (`parse_github_url`), the content fetcher
(`fetch_repo_content`), the file decoder (`get_file_content`), the tree
walker (`build_directory_tree`) and the snapshot assembler
(`retrieve_github_repo_info`).

Python strings are modelled by `String` (a wrapper around `List Char`,
matching Python's length/slicing semantics, which count characters).
Python string primitives used by the source (`split`, `strip`, `endswith`,
slicing, `*`) are re-implemented on `List Char` so that every definition
evaluates inside the kernel; each helper is named `py...` and documents
the Python primitive it models.

External collaborators (the HTTP transport of `requests`, the
base64/UTF-8 codec, and the remote repository served by the GitHub
contents API) are modelled as explicit parameters: an abstract transport
function for `fetch_repo_content`, an abstract codec for
`get_file_content`, and a finite tree of directory listings (`FSEntry`)
plus a per-path file-fetch function (`Mock`) for the walker and the
assembler.  Exceptions are modelled with `Except`.
-/

deriving instance DecidableEq for Except

/-- Model of Python `s[:n]` (and `str[:n]` slicing with a nonnegative bound):
the first `n` characters of `s`. -/
def pyTake (s : String) (n : Nat) : String := String.mk (s.data.take n)

/-- Model of Python `s * n` string repetition (used as `'    ' * indent`). -/
def pyMul (s : String) : Nat → String
  | 0 => ""
  | n + 1 => s ++ pyMul s n

/-- Model of Python `str.split(sep)` for a single-character separator, on
character lists: splitting the empty string gives `[[]]`, and consecutive
separators give empty segments, exactly as in Python. -/
def pySplitChar (sep : Char) : List Char → List (List Char)
  | [] => [[]]
  | c :: rest =>
    match pySplitChar sep rest with
    | seg :: segs => if c = sep then [] :: seg :: segs else (c :: seg) :: segs
    | [] => [[]]

/-- Model of Python `str.split(sep)` for a single-character separator. -/
def pySplit (sep : Char) (s : String) : List String :=
  (pySplitChar sep s.data).map String.mk

/-- Model of Python `str.endswith(t)`. -/
def pyEndsWith (s t : String) : Bool :=
  decide (s.data.reverse.take t.data.length = t.data.reverse)

/-- Model of Python `str.lstrip(chars)`: drop leading characters satisfying `p`. -/
def pyLStrip (p : Char → Bool) (l : List Char) : List Char := l.dropWhile p

/-- Model of Python `str.strip(chars)`: drop leading and trailing characters
satisfying `p`. -/
def pyStripList (p : Char → Bool) (l : List Char) : List Char :=
  ((l.dropWhile p).reverse.dropWhile p).reverse

theorem strLength_append (s t : String) : (s ++ t).length = s.length + t.length := by
  cases s with
  | mk d =>
    cases t with
    | mk e => exact List.length_append d e

theorem pyTake_length (s : String) (n : Nat) : (pyTake s n).length = min n s.length := by
  cases s with
  | mk d => simp [pyTake, String.length]

/-- The exception taxonomy raised by the embedded code: `invalidReference`
models the `ValueError` raised by `parse_github_url`, `upstream` models the
`requests.HTTPError` raised by `response.raise_for_status()` (carrying the
HTTP status), and `decodeError` models the base64/UTF-8 decode exceptions
that `get_file_content` can raise. -/
inductive Err where
  | invalidReference (msg : String)
  | upstream (status : Nat)
  | decodeError
deriving DecidableEq, Repr

/-! ## URL parser (`parse_github_url`, src/utils.py lines 5-18)

`urlparse` is from the Python standard library; the helpers below model the
path-extraction part of CPython's `urllib.parse.urlparse`: leading
C0-control/space stripping, removal of tab/CR/LF, scheme recognition,
netloc recognition after `//`, and splitting off fragment (`#`), query
(`?`) and params (`;` in the last path segment). -/

/-- Characters stripped from the front of a URL by `urlsplit`
(`_WHATWG_C0_CONTROL_OR_SPACE`). -/
def isC0OrSpace (c : Char) : Bool := c.toNat ≤ 32

/-- Characters removed everywhere in a URL by `urlsplit`
(`_UNSAFE_URL_BYTES_TO_REMOVE`: tab, CR, LF). -/
def isUnsafeUrlChar (c : Char) : Bool := c == '\t' || c == '\r' || c == '\n'

/-- Characters allowed in a URL scheme after the leading letter. -/
def isSchemeChar (c : Char) : Bool := c.isAlphanum || c == '+' || c == '-' || c == '.'

/-- Strip a leading `scheme:` if the text before the first colon is a valid
scheme (first character an ASCII letter, the rest scheme characters). -/
def dropScheme (u : List Char) : List Char :=
  match u.findIdx? (· == ':') with
  | some i =>
    if 0 < i ∧ (u.headD ' ').isAlpha ∧ ((u.take i).drop 1).all isSchemeChar then
      u.drop (i + 1)
    else u
  | none => u

/-- After a leading `//`, drop the network location: everything up to the
next `/`, `?` or `#` (which is kept). -/
def dropNetloc (u : List Char) : List Char :=
  match u with
  | '/' :: '/' :: rest => rest.dropWhile (fun c => !(c == '/' || c == '?' || c == '#'))
  | _ => u

/-- Drop a `#fragment` suffix. -/
def dropFragment (u : List Char) : List Char := u.takeWhile (· != '#')

/-- Drop a `?query` suffix. -/
def dropQuery (u : List Char) : List Char := u.takeWhile (· != '?')

/-- Model of `urllib.parse._splitparams`: if the last path segment contains
`;`, cut the segment at the first `;`. -/
def dropParams (path : List Char) : List Char :=
  if ';' ∈ path then
    if '/' ∈ path then
      let lastSeg := (path.reverse.takeWhile (· != '/')).reverse
      let stem := path.take (path.length - lastSeg.length)
      if ';' ∈ lastSeg then stem ++ lastSeg.takeWhile (· != ';') else path
    else path.takeWhile (· != ';')
  else path

/-- The `.path` attribute of `urllib.parse.urlparse(url)`. -/
def urlparse_path (url : String) : String :=
  let u := (pyLStrip isC0OrSpace url.data).filter (fun c => !isUnsafeUrlChar c)
  String.mk (dropParams (dropQuery (dropFragment (dropNetloc (dropScheme u)))))

/-- `parse_github_url` (src/utils.py lines 5-18): take the path of the
parsed URL, strip `/` from both ends, split on `/`; with at least two
segments return the first two as `(owner, repo)`, stripping a trailing
`.git` from the repo, otherwise raise `ValueError`. -/
def parse_github_url (url : String) : Except Err (String × String) :=
  let path_segments := pySplit '/' (String.mk (pyStripList (· == '/') (urlparse_path url).data))
  if 2 ≤ path_segments.length then
    let owner := path_segments.getD 0 ""
    let repo := path_segments.getD 1 ""
    let repo := if pyEndsWith repo ".git" then pyTake repo (repo.length - 4) else repo
    .ok (owner, repo)
  else
    .error (.invalidReference "Invalid GitHub URL provided!")

example : parse_github_url "https://github.com/acme/widgets.git" = .ok ("acme", "widgets") := by
  decide

example : parse_github_url "https://github.com" =
    .error (.invalidReference "Invalid GitHub URL provided!") := by decide

example : parse_github_url "https://github.com/acme//widgets" = .ok ("acme", "") := by decide

/-! ## Content fetcher (`fetch_repo_content`, src/utils.py lines 20-32)

The HTTP transport (`requests.get`) is modelled as an abstract function
from a URL and a header list to a response; a response carries a status
code and an already-parsed JSON body (`response.json()`). -/

/-- A small JSON value type for response bodies: the contents API returns
an object for a file and an array for a directory listing. -/
inductive JsonVal where
  | null
  | str (s : String)
  | num (n : Int)
  | arr (elems : List JsonVal)
  | obj (fields : List (String × JsonVal))

/-- An HTTP response as seen through `requests`: status code and parsed
JSON body. -/
structure HttpResponse where
  status_code : Nat
  json : JsonVal

/-- Python truthiness of the optional `token` argument (`if token:`):
true exactly for a non-empty string. -/
def pyTruthy : Option String → Bool
  | none => false
  | some t => t.length != 0

/-- The URL built by `fetch_repo_content`. -/
def contents_url (owner repo path : String) : String :=
  "https://api.github.com/repos/" ++ owner ++ "/" ++ repo ++ "/contents/" ++ path

/-- The header dict built by `fetch_repo_content` (insertion order):
always the versioned-JSON `Accept` header, plus a bearer `Authorization`
header when `if token:` is truthy. -/
def request_headers (token : Option String) : List (String × String) :=
  if pyTruthy token then
    [("Accept", "application/vnd.github.v3+json"),
     ("Authorization", "Bearer " ++ token.getD "")]
  else
    [("Accept", "application/vnd.github.v3+json")]

/-- `fetch_repo_content` (src/utils.py lines 20-32): perform the GET, return
the parsed JSON on status 200; otherwise call `response.raise_for_status()`,
which raises an `HTTPError` only for statuses 400-599 and does nothing for
any other status, in which case the Python function falls through and
returns `None` (modelled by `.ok none`). -/
def fetch_repo_content (httpGet : String → List (String × String) → HttpResponse)
    (owner repo path : String) (token : Option String) : Except Err (Option JsonVal) :=
  let response := httpGet (contents_url owner repo path) (request_headers token)
  if response.status_code = 200 then
    .ok (some response.json)
  else if 400 ≤ response.status_code ∧ response.status_code < 600 then
    .error (.upstream response.status_code)
  else
    .ok none

/-! ## File decoder (`get_file_content`, src/utils.py lines 34-41)

The base64/UTF-8 codec (`base64.b64decode(...).decode('utf-8')`) is an
external library; it is modelled as an abstract fallible function passed
in explicitly. -/

/-- A fetched file record as used by `get_file_content`: its `encoding`
field and its `content` payload. -/
structure FileInfo where
  encoding : String
  content : String
deriving DecidableEq

/-- `get_file_content` (src/utils.py lines 34-41): decode base64-encoded
content through the codec (which may fail), return other content verbatim. -/
def get_file_content (b64decode : String → Except Err String) (file_info : FileInfo) :
    Except Err String :=
  if file_info.encoding = "base64" then b64decode file_info.content
  else .ok file_info.content

/-! ## Tree walker (`build_directory_tree`, src/utils.py lines 43-68)

The remote repository behind `fetch_repo_content` is modelled as a finite
tree: the result of fetching a directory path is the listing stored at the
corresponding `dir` node, and a `dirErr` node stands for a directory whose
nested `fetch_repo_content` call raises (an `UpstreamError`), which the
walker does not catch.  Each entry carries the `name` and repo-relative
`path` fields of the corresponding JSON item. -/

inductive FSEntry where
  | file (name path : String)
  | dir (name path : String) (children : List FSEntry)
  | dirErr (name path : String) (e : Err)

/-- The `path` field of a directory-listing item. -/
def FSEntry.path : FSEntry → String
  | .file _ p => p
  | .dir _ p _ => p
  | .dirErr _ p _ => p

/-- The `name` field of a directory-listing item. -/
def FSEntry.name : FSEntry → String
  | .file n _ => n
  | .dir n _ _ => n
  | .dirErr n _ _ => n

/-- The extension allow-list of src/utils.py line 66. -/
def text_extensions : List String := [".py", ".html", ".css", ".js", ".jsx", ".rst", ".md"]

/-- The loop body of `build_directory_tree` (src/utils.py lines 55-68),
walking one fetched listing: skip any item whose `path` contains a
`.github` segment; render a `dir` item as `[name/]` and recurse into its
listing (propagating a failed nested fetch); render a file item as its
name and append `(indent, path)` to the accumulator when the name ends in
an allow-listed extension.  Returns the rendered tree string and the final
accumulator. -/
def walkEntries : Nat → List FSEntry → List (Nat × String) →
    Except Err (String × List (Nat × String))
  | _, [], file_paths => .ok ("", file_paths)
  | indent, item :: rest, file_paths =>
    if ".github" ∈ pySplit '/' item.path then
      walkEntries indent rest file_paths
    else
      match item with
      | .dirErr _ _ e => .error e
      | .dir name _ children =>
        match walkEntries (indent + 1) children file_paths with
        | .error e => .error e
        | .ok (subtree_str, fps1) =>
          match walkEntries indent rest fps1 with
          | .error e => .error e
          | .ok (rest_str, fps2) =>
            .ok (pyMul "    " indent ++ "[" ++ name ++ "/]\n" ++ subtree_str ++ rest_str, fps2)
      | .file name path =>
        let fps1 :=
          if text_extensions.any (fun ext => pyEndsWith name ext) then
            file_paths ++ [(indent, path)]
          else file_paths
        match walkEntries indent rest fps1 with
        | .error e => .error e
        | .ok (rest_str, fps2) =>
          .ok (pyMul "    " indent ++ name ++ "\n" ++ rest_str, fps2)

/-- `build_directory_tree` (src/utils.py lines 43-68): the Python default
`file_paths=None` allocates a fresh accumulator per call; `root` is the
result of the initial `fetch_repo_content(owner, repo, path, token)` call,
which propagates its failure. -/
def build_directory_tree (root : Except Err (List FSEntry)) (indent : Nat)
    (file_paths : Option (List (Nat × String))) : Except Err (String × List (Nat × String)) :=
  let fps := file_paths.getD []
  match root with
  | .error e => .error e
  | .ok items => walkEntries indent items fps

example :
    build_directory_tree
      (.ok [.file "a.py" "a.py", .dir "src" "src" [.file "b.md" "src/b.md"], .file "x.txt" "x.txt"])
      0 none =
    .ok ("a.py\n[src/]\n    b.md\nx.txt\n", [(0, "a.py"), (1, "src/b.md")]) := by
  simp only [build_directory_tree, walkEntries, Option.getD] <;> decide

/-! ## Snapshot assembler (`retrieve_github_repo_info`, src/utils.py lines 70-119)

The assembler reaches the outside world only through `fetch_repo_content`
(for `README.md` and for each candidate file) and through the directory
walk.  A `Mock` bundles those collaborators: `fetchFile path` is the
result of `fetch_repo_content(owner, repo, path, token)` for a file path
(failure covers both an `UpstreamError` and a malformed record),
`b64decode` is the external base64/UTF-8 codec used by
`get_file_content`, and `root` is the listing fetched by
`build_directory_tree` from the repository root. -/

/-- The three keyword budgets of `retrieve_github_repo_info`. -/
structure Budgets where
  max_files : Nat
  max_file_chars : Nat
  total_chars_cap : Nat
deriving DecidableEq

/-- The default budgets (`max_files=80`, `max_file_chars=15000`,
`total_chars_cap=200_000`). -/
def default_budgets : Budgets := ⟨80, 15000, 200000⟩

/-- The mocked collaborators of one snapshot build. -/
structure Mock where
  fetchFile : String → Except Err FileInfo
  b64decode : String → Except Err String
  root : Except Err (List FSEntry)

/-- `fetch_repo_content` followed by `get_file_content` for a file path, as
performed inside both `try` blocks of the assembler. -/
def fetch_and_decode (m : Mock) (path : String) : Except Err String :=
  match m.fetchFile path with
  | .error e => .error e
  | .ok file_info => get_file_content m.b64decode file_info

/-- The truncation applied to every decoded file body (src/utils.py lines
86-87 for the README and 103-104 for candidate files): bodies longer than
`max_file_chars` are cut to their first `max_file_chars` characters and a
truncation marker is appended. -/
def truncate_file_content (max_file_chars : Nat) (content : String) : String :=
  if max_file_chars < content.length then
    pyTake content max_file_chars ++ "\n... [truncated]\n"
  else content

/-- The fenced, indented, path-labelled block built for one candidate file
(src/utils.py line 105), from its decoded (untruncated) content. -/
def file_snippet (b : Budgets) (indent : Nat) (path file_content : String) : String :=
  "\n" ++ pyMul "    " indent ++ path ++ ":\n" ++ pyMul "    " indent ++ "```\n" ++
    truncate_file_content b.max_file_chars file_content ++ "\n" ++ pyMul "    " indent ++ "```\n"

/-- The README step of the assembler (src/utils.py lines 83-90): on any
failure of the fetch or the decode, a fixed placeholder line; otherwise
the truncated README in a fenced block. -/
def readme_block (m : Mock) (b : Budgets) : String :=
  match fetch_and_decode m "README.md" with
  | .ok readme_content =>
    "README.md:\n```\n" ++ truncate_file_content b.max_file_chars readme_content ++ "\n```\n\n"
  | .error _ => "README.md: Not found or error fetching README\n\n"

/-- The candidate-file loop of the assembler (src/utils.py lines 96-117),
returning the grown snapshot text together with `files_added`.  Per
iteration: stop when `max_files` files were added or the text has reached
`total_chars_cap`; a failed fetch/decode skips the file; a block that
would overflow the cap is clipped to the remaining budget (when positive)
and ends the iteration without incrementing `files_added`. -/
def filesLoop (m : Mock) (b : Budgets) : List (Nat × String) → String → Nat → String × Nat
  | [], formatted_string, files_added => (formatted_string, files_added)
  | (indent, path) :: rest, formatted_string, files_added =>
    if b.max_files ≤ files_added ∨ b.total_chars_cap ≤ formatted_string.length then
      (formatted_string, files_added)
    else
      match fetch_and_decode m path with
      | .error _ => filesLoop m b rest formatted_string files_added
      | .ok file_content =>
        let snippet := file_snippet b indent path file_content
        if b.total_chars_cap < formatted_string.length + snippet.length then
          let remaining := b.total_chars_cap - formatted_string.length
          let clipped := if 0 < remaining then pyTake snippet remaining else snippet
          (formatted_string ++ clipped, files_added)
        else
          filesLoop m b rest (formatted_string ++ snippet) (files_added + 1)

/-- `retrieve_github_repo_info` (src/utils.py lines 70-119): parse the URL
(fatal on failure), build the README block (placeholder on failure), walk
the directory tree (fatal on failure), then append candidate-file blocks
under the budgets. -/
def retrieve_github_repo_info (m : Mock) (url : String) (b : Budgets) : Except Err String :=
  match parse_github_url url with
  | .error e => .error e
  | .ok _ =>
    match build_directory_tree m.root 0 none with
    | .error e => .error e
    | .ok (directory_tree, file_paths) =>
      let formatted_string :=
        readme_block m b ++ "Directory Structure:\n" ++ directory_tree ++ "\n"
      .ok (filesLoop m b file_paths formatted_string 0).1

/-! ## Helper lemmas -/

theorem head?_dropWhile_false (p : Char → Bool) (l : List Char) (c : Char)
    (h : (l.dropWhile p).head? = some c) : p c = false := by
  induction l with
  | nil => simp [List.dropWhile] at h
  | cons a t ih =>
    rw [List.dropWhile_cons] at h
    by_cases hpa : p a = true
    · exact ih (by rwa [if_pos hpa] at h)
    · rw [if_neg hpa] at h
      simp only [List.head?_cons, Option.some.injEq] at h
      subst h
      simpa using hpa

theorem getLast?_dropWhile_ne_nil (p : Char → Bool) (l : List Char)
    (h : l.dropWhile p ≠ []) : (l.dropWhile p).getLast? = l.getLast? := by
  induction l with
  | nil => simp [List.dropWhile] at h
  | cons a t ih =>
    rw [List.dropWhile_cons] at h ⊢
    by_cases hpa : p a = true
    · rw [if_pos hpa] at h ⊢
      have ht : t ≠ [] := by
        intro he
        subst he
        simp [List.dropWhile] at h
      rw [ih h]
      cases t with
      | nil => exact absurd rfl ht
      | cons b t2 => exact List.getLast?_cons_cons.symm
    · rw [if_neg hpa]

theorem pyStripList_head (p : Char → Bool) (l : List Char) (c : Char)
    (h : (pyStripList p l).head? = some c) : p c = false := by
  unfold pyStripList at h
  rw [List.head?_reverse] at h
  have hne : (l.dropWhile p).reverse.dropWhile p ≠ [] := by
    intro he
    rw [he] at h
    simp at h
  rw [getLast?_dropWhile_ne_nil p _ hne, List.getLast?_reverse] at h
  exact head?_dropWhile_false p _ c h

theorem pyStripList_getLast (p : Char → Bool) (l : List Char) (c : Char)
    (h : (pyStripList p l).getLast? = some c) : p c = false := by
  unfold pyStripList at h
  rw [List.getLast?_reverse] at h
  exact head?_dropWhile_false p _ c h

theorem pySplitChar_ne_nil (sep : Char) (l : List Char) : pySplitChar sep l ≠ [] := by
  cases l with
  | nil => simp [pySplitChar]
  | cons c rest =>
    simp only [pySplitChar]
    split
    · split <;> simp
    · simp

theorem pySplitChar_cons (sep c : Char) (rest seg : List Char) (segs : List (List Char))
    (hr : pySplitChar sep rest = seg :: segs) :
    pySplitChar sep (c :: rest) =
      if c = sep then [] :: seg :: segs else (c :: seg) :: segs := by
  rw [pySplitChar, hr]

theorem pySplitChar_shape (sep : Char) (rest : List Char) :
    ∃ a b, pySplitChar sep rest = a :: b := by
  cases h : pySplitChar sep rest with
  | nil => exact absurd h (pySplitChar_ne_nil sep rest)
  | cons a b => exact ⟨a, b, rfl⟩

theorem pySplitChar_head_nonempty (sep : Char) (l : List Char)
    (hne : l ≠ []) (hh : l.head? ≠ some sep) :
    ∃ s0 ss, pySplitChar sep l = s0 :: ss ∧ s0 ≠ [] := by
  cases l with
  | nil => exact absurd rfl hne
  | cons c rest =>
    have hc : c ≠ sep := by
      intro he
      exact hh (by rw [he]; rfl)
    obtain ⟨seg, segs, hr⟩ := pySplitChar_shape sep rest
    exact ⟨c :: seg, segs, by rw [pySplitChar_cons sep c rest seg segs hr, if_neg hc], by simp⟩

theorem pySplitChar_getLast_nonempty (sep : Char) (l : List Char)
    (hne : l ≠ []) (hl : l.getLast? ≠ some sep) :
    ∃ sl, (pySplitChar sep l).getLast? = some sl ∧ sl ≠ [] := by
  induction l with
  | nil => exact absurd rfl hne
  | cons c rest ih =>
    cases rest with
    | nil =>
      have hc : c ≠ sep := by
        intro he
        exact hl (by rw [he]; rfl)
      rw [pySplitChar_cons sep c [] [] [] (by simp [pySplitChar]), if_neg hc]
      exact ⟨[c], rfl, by simp⟩
    | cons d rest2 =>
      have hl2 : (d :: rest2).getLast? ≠ some sep := by
        rwa [List.getLast?_cons_cons] at hl
      obtain ⟨sl, hsl, hslne⟩ := ih (by simp) hl2
      obtain ⟨seg, segs, hr⟩ := pySplitChar_shape sep (d :: rest2)
      rw [hr] at hsl
      rw [pySplitChar_cons sep c (d :: rest2) seg segs hr]
      by_cases hc : c = sep
      · rw [if_pos hc]
        exact ⟨sl, by rwa [List.getLast?_cons_cons], hslne⟩
      · rw [if_neg hc]
        cases segs with
        | nil => exact ⟨c :: seg, rfl, by simp⟩
        | cons s2 segs2 =>
          rw [List.getLast?_cons_cons] at hsl ⊢
          exact ⟨sl, hsl, hslne⟩

theorem filter_nonempty_two (sep : Char) (L : List Char)
    (hh : L.head? ≠ some sep) (hl : L.getLast? ≠ some sep)
    (h2 : 2 ≤ (pySplitChar sep L).length) :
    2 ≤ ((pySplitChar sep L).filter (fun s => !s.isEmpty)).length := by
  have hLne : L ≠ [] := by
    intro he
    subst he
    simp [pySplitChar] at h2
  obtain ⟨s0, ss, hcons, hs0⟩ := pySplitChar_head_nonempty sep L hLne hh
  obtain ⟨sl, hsl, hslne⟩ := pySplitChar_getLast_nonempty sep L hLne hl
  rw [hcons] at h2 hsl ⊢
  have hss : ss ≠ [] := by
    intro he
    subst he
    simp at h2
  have hsl' : ss.getLast? = some sl := by
    cases ss with
    | nil => exact absurd rfl hss
    | cons a t => rwa [List.getLast?_cons_cons] at hsl
  obtain ⟨hne2, heq⟩ := List.mem_getLast?_eq_getLast (Option.mem_def.mpr hsl')
  have hmem : sl ∈ ss := heq ▸ List.getLast_mem hne2
  have hps0 : (!s0.isEmpty) = true := by
    cases s0 with
    | nil => exact absurd rfl hs0
    | cons a t => rfl
  have hpsl : (!sl.isEmpty) = true := by
    cases sl with
    | nil => exact absurd rfl hslne
    | cons a t => rfl
  have hmem2 : sl ∈ ss.filter (fun s => !s.isEmpty) := List.mem_filter.mpr ⟨hmem, hpsl⟩
  have hpos : 0 < (ss.filter (fun s => !s.isEmpty)).length :=
    List.length_pos.mpr (List.ne_nil_of_mem hmem2)
  simp only [List.filter_cons, hps0, if_true, List.length_cons]
  omega

/-! ## Tree-walker lemmas -/

theorem walkEntries_nil (indent : Nat) (acc : List (Nat × String)) :
    walkEntries indent [] acc = .ok ("", acc) := by
  rw [walkEntries.eq_def]

theorem walkEntries_cons_skip (indent : Nat) (item : FSEntry) (rest : List FSEntry)
    (acc : List (Nat × String)) (h : ".github" ∈ pySplit '/' item.path) :
    walkEntries indent (item :: rest) acc = walkEntries indent rest acc := by
  rw [walkEntries.eq_def]
  simp only [if_pos h]

theorem walkEntries_cons_dirErr (indent : Nat) (n p : String) (e : Err) (rest : List FSEntry)
    (acc : List (Nat × String)) (h : ".github" ∉ pySplit '/' p) :
    walkEntries indent (.dirErr n p e :: rest) acc = .error e := by
  rw [walkEntries.eq_def]
  simp only [FSEntry.path, if_neg h]

theorem walkEntries_cons_dir (indent : Nat) (n p : String) (children rest : List FSEntry)
    (acc : List (Nat × String)) (h : ".github" ∉ pySplit '/' p) :
    walkEntries indent (.dir n p children :: rest) acc =
      match walkEntries (indent + 1) children acc with
      | .error e => .error e
      | .ok (subtree_str, fps1) =>
        match walkEntries indent rest fps1 with
        | .error e => .error e
        | .ok (rest_str, fps2) =>
          .ok (pyMul "    " indent ++ "[" ++ n ++ "/]\n" ++ subtree_str ++ rest_str, fps2) := by
  conv_lhs => rw [walkEntries.eq_def]
  simp only [FSEntry.path, if_neg h]

theorem walkEntries_cons_file (indent : Nat) (n p : String) (rest : List FSEntry)
    (acc : List (Nat × String)) (h : ".github" ∉ pySplit '/' p) :
    walkEntries indent (.file n p :: rest) acc =
      (let fps1 :=
        if text_extensions.any (fun ext => pyEndsWith n ext) then acc ++ [(indent, p)] else acc
      match walkEntries indent rest fps1 with
      | .error e => .error e
      | .ok (rest_str, fps2) =>
        .ok (pyMul "    " indent ++ n ++ "\n" ++ rest_str, fps2)) := by
  conv_lhs => rw [walkEntries.eq_def]
  simp only [FSEntry.path, if_neg h]

theorem walk_acc : (items : List FSEntry) → (indent : Nat) → (acc : List (Nat × String)) →
    walkEntries indent items acc =
      (walkEntries indent items []).map (fun r => (r.1, acc ++ r.2))
  | [], indent, acc => by
    simp [walkEntries_nil, Except.map]
  | item :: rest, indent, acc => by
    by_cases hskip : ".github" ∈ pySplit '/' item.path
    · rw [walkEntries_cons_skip indent item rest acc hskip,
        walkEntries_cons_skip indent item rest [] hskip]
      exact walk_acc rest indent acc
    · cases item with
      | dirErr n p e =>
        rw [walkEntries_cons_dirErr indent n p e rest acc hskip,
          walkEntries_cons_dirErr indent n p e rest [] hskip]
        simp [Except.map]
      | dir n p children =>
        rw [walkEntries_cons_dir indent n p children rest acc hskip,
          walkEntries_cons_dir indent n p children rest [] hskip]
        rw [walk_acc children (indent + 1) acc]
        cases hch : walkEntries (indent + 1) children [] with
        | error e => simp [Except.map]
        | ok r =>
          obtain ⟨sub, g1⟩ := r
          simp only [Except.map]
          rw [walk_acc rest indent (acc ++ g1), walk_acc rest indent g1]
          cases hr : walkEntries indent rest [] with
          | error e => simp [Except.map]
          | ok r2 =>
            obtain ⟨rs, g2⟩ := r2
            simp [Except.map, List.append_assoc]
      | file n p =>
        rw [walkEntries_cons_file indent n p rest acc hskip,
          walkEntries_cons_file indent n p rest [] hskip]
        by_cases hext : text_extensions.any (fun ext => pyEndsWith n ext)
        · simp only [if_pos hext]
          rw [walk_acc rest indent (acc ++ [(indent, p)]),
            walk_acc rest indent ([] ++ [(indent, p)])]
          cases hr : walkEntries indent rest [] with
          | error e => simp [Except.map]
          | ok r2 =>
            obtain ⟨rs, g2⟩ := r2
            simp [Except.map, List.append_assoc]
        · simp only [if_neg hext]
          rw [walk_acc rest indent acc]
          cases hr : walkEntries indent rest [] with
          | error e => simp [Except.map]
          | ok r2 =>
            obtain ⟨rs, g2⟩ := r2
            simp [Except.map]
termination_by items _ _ => sizeOf items

/-! ## Assembler-loop lemmas -/

theorem filesLoop_nil (m : Mock) (b : Budgets) (s : String) (n : Nat) :
    filesLoop m b [] s n = (s, n) := rfl

theorem filesLoop_cons (m : Mock) (b : Budgets) (indent : Nat) (path : String)
    (rest : List (Nat × String)) (s : String) (n : Nat) :
    filesLoop m b ((indent, path) :: rest) s n =
      if b.max_files ≤ n ∨ b.total_chars_cap ≤ s.length then
        (s, n)
      else
        match fetch_and_decode m path with
        | .error _ => filesLoop m b rest s n
        | .ok file_content =>
          let snippet := file_snippet b indent path file_content
          if b.total_chars_cap < s.length + snippet.length then
            let remaining := b.total_chars_cap - s.length
            let clipped := if 0 < remaining then pyTake snippet remaining else snippet
            (s ++ clipped, n)
          else
            filesLoop m b rest (s ++ snippet) (n + 1) := rfl

theorem file_snippet_length_pos (b : Budgets) (indent : Nat) (path content : String) :
    0 < (file_snippet b indent path content).length := by
  have h1 : ("\n" : String).length = 1 := rfl
  simp only [file_snippet, strLength_append]
  omega

theorem filesLoop_length_le (m : Mock) (b : Budgets) :
    ∀ (fps : List (Nat × String)) (s : String) (n : Nat),
      (filesLoop m b fps s n).1.length ≤ max b.total_chars_cap s.length := by
  intro fps
  induction fps with
  | nil =>
    intro s n
    rw [filesLoop_nil]
    exact Nat.le_max_right _ _
  | cons hd tl ih =>
    intro s n
    obtain ⟨indent, path⟩ := hd
    rw [filesLoop_cons]
    by_cases hstop : b.max_files ≤ n ∨ b.total_chars_cap ≤ s.length
    · rw [if_pos hstop]
      exact Nat.le_max_right _ _
    · rw [if_neg hstop]
      push_neg at hstop
      obtain ⟨hn, hs⟩ := hstop
      cases hfd : fetch_and_decode m path with
      | error e => exact ih s n
      | ok file_content =>
        simp only
        by_cases hov : b.total_chars_cap < s.length + (file_snippet b indent path file_content).length
        · rw [if_pos hov, if_pos (by omega : 0 < b.total_chars_cap - s.length)]
          rw [strLength_append, pyTake_length]
          have := Nat.le_max_left b.total_chars_cap s.length
          omega
        · rw [if_neg hov]
          have h2 := ih (s ++ file_snippet b indent path file_content) (n + 1)
          rw [strLength_append] at h2
          omega

/-! ## Concrete collaborators used by witnesses -/

/-- A file fetch that always fails with HTTP 404. -/
def fetchNone : String → Except Err FileInfo := fun _ => .error (.upstream 404)

/-- A codec that always fails (never reached by the witnesses that use it). -/
def decodeFail : String → Except Err String := fun _ => .error .decodeError

/-- A repository with a single root file `a.py` and no fetchable file bodies. -/
def mockA : Mock := ⟨fetchNone, decodeFail, .ok [.file "a.py" "a.py"]⟩

/-- A repository whose root directory listing fails with HTTP 502. -/
def mockErr : Mock := ⟨fetchNone, decodeFail, .error (.upstream 502)⟩

/-! ## Claims -/

/-- C1: for every successful snapshot build, the length of the returned
snapshot text is at most `total_chars_cap`, except for the overshoot
already present in the pre-loop text (README block, `Directory Structure`
header and untruncated tree string); and whenever a file block would
overflow the cap (with the loop still running), it is clipped to exactly
the remaining budget, the clipped append makes the text exactly
`total_chars_cap` characters long, and iteration stops. -/
theorem c1_snapshot_length_bounded (m : Mock) (b : Budgets) (url : String)
    (directory_tree out : String) (fps : List (Nat × String))
    (hwalk : build_directory_tree m.root 0 none = .ok (directory_tree, fps))
    (hok : retrieve_github_repo_info m url b = .ok out) :
    out.length ≤ max b.total_chars_cap
        (readme_block m b ++ "Directory Structure:\n" ++ directory_tree ++ "\n").length ∧
    ∀ (indent n : Nat) (path s content : String) (rest : List (Nat × String)),
      n < b.max_files → s.length < b.total_chars_cap →
      fetch_and_decode m path = .ok content →
      b.total_chars_cap < s.length + (file_snippet b indent path content).length →
      filesLoop m b ((indent, path) :: rest) s n =
        (s ++ pyTake (file_snippet b indent path content) (b.total_chars_cap - s.length), n) ∧
      (s ++ pyTake (file_snippet b indent path content)
        (b.total_chars_cap - s.length)).length = b.total_chars_cap := by
  constructor
  · simp only [retrieve_github_repo_info] at hok
    cases hp : parse_github_url url with
    | error e =>
      rw [hp] at hok
      exact absurd hok (by simp)
    | ok pr =>
      rw [hp, hwalk] at hok
      simp only [Except.ok.injEq] at hok
      rw [← hok]
      exact filesLoop_length_le m b fps _ 0
  · intro indent n path s content rest hn hs hfd hov
    have hrem : 0 < b.total_chars_cap - s.length := by omega
    constructor
    · rw [filesLoop_cons, if_neg (by omega)]
      simp only [hfd]
      rw [if_pos hov, if_pos hrem]
    · rw [strLength_append, pyTake_length]
      omega

/-- C1 witness: a concrete successful build respecting the bound. -/
theorem c1_snapshot_length_bounded_witness :
    build_directory_tree mockA.root 0 none = .ok ("a.py\n", [(0, "a.py")]) ∧
    retrieve_github_repo_info mockA "https://github.com/acme/widgets" default_budgets =
      .ok "README.md: Not found or error fetching README\n\nDirectory Structure:\na.py\n\n" ∧
    ("README.md: Not found or error fetching README\n\nDirectory Structure:\na.py\n\n" :
        String).length ≤
      max default_budgets.total_chars_cap
        (readme_block mockA default_budgets ++ "Directory Structure:\n" ++ "a.py\n" ++
          "\n").length := by
  have hwalk : build_directory_tree mockA.root 0 none = .ok ("a.py\n", [(0, "a.py")]) := by
    simp only [mockA, build_directory_tree, walkEntries, Option.getD] <;> decide
  have hok : retrieve_github_repo_info mockA "https://github.com/acme/widgets" default_budgets =
      .ok "README.md: Not found or error fetching README\n\nDirectory Structure:\na.py\n\n" := by
    simp only [retrieve_github_repo_info, mockA, build_directory_tree, walkEntries,
      Option.getD] <;> decide
  exact ⟨hwalk, hok,
    (c1_snapshot_length_bounded mockA default_budgets "https://github.com/acme/widgets"
      "a.py\n" _ [(0, "a.py")] hwalk hok).1⟩

/-- C3: an entry whose repo-relative path contains a `.github` segment
contributes nothing to the walk: it is not rendered, not collected and not
recursed into — the walk of a listing starting with it equals the walk of
the listing without it. -/
theorem c3_github_entries_skipped (indent : Nat) (item : FSEntry) (rest : List FSEntry)
    (acc : List (Nat × String)) (h : ".github" ∈ pySplit '/' item.path) :
    walkEntries indent (item :: rest) acc = walkEntries indent rest acc :=
  walkEntries_cons_skip indent item rest acc h

/-- C3 witness: an entry at path `.github/workflows/ci.yml` is excluded
from both outputs, which equal those of the listing without it. -/
theorem c3_github_entries_skipped_witness :
    (".github" ∈ pySplit '/' (FSEntry.path (.file "ci.yml" ".github/workflows/ci.yml"))) ∧
    walkEntries 0 [.file "ci.yml" ".github/workflows/ci.yml", .file "a.py" "a.py"] [] =
      walkEntries 0 [.file "a.py" "a.py"] [] :=
  ⟨by decide,
    c3_github_entries_skipped 0 (.file "ci.yml" ".github/workflows/ci.yml")
      [.file "a.py" "a.py"] [] (by decide)⟩

/-- C7: an `UpstreamError` raised while fetching a directory during the
tree walk is not caught: the walker returns it (first conjunct), and the
assembler propagates a failed walk as the result of the whole build
(second conjunct). -/
theorem c7_traversal_error_propagates :
    (∀ (indent : Nat) (name path : String) (e : Err) (rest : List FSEntry)
      (acc : List (Nat × String)), ".github" ∉ pySplit '/' path →
      walkEntries indent (.dirErr name path e :: rest) acc = .error e) ∧
    (∀ (m : Mock) (url : String) (b : Budgets) (pr : String × String) (e : Err),
      parse_github_url url = .ok pr →
      build_directory_tree m.root 0 none = .error e →
      retrieve_github_repo_info m url b = .error e) := by
  constructor
  · intro indent name path e rest acc h
    exact walkEntries_cons_dirErr indent name path e rest acc h
  · intro m url b pr e hp hw
    simp only [retrieve_github_repo_info, hp, hw]

/-- C7 witness: a concrete failed directory fetch aborts the walk and the
whole snapshot build. -/
theorem c7_traversal_error_propagates_witness :
    walkEntries 0 [.dirErr "sub" "sub" (.upstream 500)] [] = .error (.upstream 500) ∧
    retrieve_github_repo_info mockErr "https://github.com/acme/widgets" default_budgets =
      .error (.upstream 502) :=
  ⟨c7_traversal_error_propagates.1 0 "sub" "sub" (.upstream 500) [] [] (by decide),
    c7_traversal_error_propagates.2 mockErr "https://github.com/acme/widgets" default_budgets
      ("acme", "widgets") (.upstream 502) (by decide) (by decide)⟩

/-- C9: the tree walker is deterministic — two runs over the same static
repository tree with fresh accumulators return identical tree strings and
candidate lists — and accumulator contents only prepend to the result:
running with a non-fresh accumulator `acc` returns exactly `acc ++`
the fresh-run candidates, so no paths can leak between invocations. -/
theorem c9_walker_idempotent_no_leakage (root : Except Err (List FSEntry)) (indent : Nat)
    (acc : List (Nat × String)) (t1 t2 : String) (ps1 ps2 : List (Nat × String))
    (h1 : build_directory_tree root indent none = .ok (t1, ps1))
    (h2 : build_directory_tree root indent none = .ok (t2, ps2)) :
    t1 = t2 ∧ ps1 = ps2 ∧
    build_directory_tree root indent (some acc) =
      (build_directory_tree root indent none).map (fun r => (r.1, acc ++ r.2)) := by
  have h12 := h1.symm.trans h2
  simp only [Except.ok.injEq, Prod.mk.injEq] at h12
  refine ⟨h12.1, h12.2, ?_⟩
  cases root with
  | error e => simp [build_directory_tree, Except.map]
  | ok items =>
    simp only [build_directory_tree, Option.getD]
    exact walk_acc items indent acc

/-- C9 witness: a concrete double run with fresh accumulators, plus the
prepend-only law at a non-fresh accumulator. -/
theorem c9_walker_idempotent_no_leakage_witness :
    ("a.py\n" : String) = "a.py\n" ∧
    ([((0 : Nat), "a.py")] : List (Nat × String)) = [(0, "a.py")] ∧
    build_directory_tree (.ok [.file "a.py" "a.py"]) 0 (some [(5, "old.py")]) =
      (build_directory_tree (.ok [.file "a.py" "a.py"]) 0 none).map
        (fun r => (r.1, [(5, "old.py")] ++ r.2)) :=
  c9_walker_idempotent_no_leakage (.ok [.file "a.py" "a.py"]) 0 [(5, "old.py")]
    "a.py\n" "a.py\n" [(0, "a.py")] [(0, "a.py")]
    (by simp only [build_directory_tree, walkEntries, Option.getD] <;> decide)
    (by simp only [build_directory_tree, walkEntries, Option.getD] <;> decide)

/-- C4: with `max_files = 2`, at least five candidate files, the first two
fetching and decoding successfully, and the char cap not reached, the
snapshot embeds exactly the blocks of the first two candidates (so the
content of the third and later candidates never appears in the result,
which is independent of them), and `files_added` ends at exactly 2. -/
theorem c4_max_files_cap (m : Mock) (b : Budgets) (url : String) (pr : String × String)
    (directory_tree : String) (i1 i2 i3 i4 i5 : Nat) (p1 p2 p3 p4 p5 : String)
    (rest : List (Nat × String)) (c1 c2 : String)
    (hmax : b.max_files = 2)
    (hparse : parse_github_url url = .ok pr)
    (hwalk : build_directory_tree m.root 0 none =
      .ok (directory_tree, (i1, p1) :: (i2, p2) :: (i3, p3) :: (i4, p4) :: (i5, p5) :: rest))
    (hf1 : fetch_and_decode m p1 = .ok c1)
    (hf2 : fetch_and_decode m p2 = .ok c2)
    (hcap : (readme_block m b ++ "Directory Structure:\n" ++ directory_tree ++ "\n").length +
        (file_snippet b i1 p1 c1).length + (file_snippet b i2 p2 c2).length ≤
      b.total_chars_cap) :
    retrieve_github_repo_info m url b =
      .ok (readme_block m b ++ "Directory Structure:\n" ++ directory_tree ++ "\n" ++
        file_snippet b i1 p1 c1 ++ file_snippet b i2 p2 c2) ∧
    (filesLoop m b ((i1, p1) :: (i2, p2) :: (i3, p3) :: (i4, p4) :: (i5, p5) :: rest)
      (readme_block m b ++ "Directory Structure:\n" ++ directory_tree ++ "\n") 0).2 = 2 := by
  have hs1 := file_snippet_length_pos b i1 p1 c1
  have hs2 := file_snippet_length_pos b i2 p2 c2
  have hloop : filesLoop m b ((i1, p1) :: (i2, p2) :: (i3, p3) :: (i4, p4) :: (i5, p5) :: rest)
      (readme_block m b ++ "Directory Structure:\n" ++ directory_tree ++ "\n") 0 =
      (readme_block m b ++ "Directory Structure:\n" ++ directory_tree ++ "\n" ++
        file_snippet b i1 p1 c1 ++ file_snippet b i2 p2 c2, 2) := by
    rw [filesLoop_cons, if_neg (by rw [hmax]; omega)]
    simp only [hf1]
    rw [if_neg (by omega)]
    rw [filesLoop_cons, if_neg (by rw [hmax, strLength_append]; omega)]
    simp only [hf2]
    rw [if_neg (by rw [strLength_append]; omega)]
    rw [filesLoop_cons, if_pos (Or.inl (by rw [hmax]))]
  constructor
  · simp only [retrieve_github_repo_info, hparse, hwalk]
    rw [hloop]
  · rw [hloop]

/-- Repository of five fetchable root `.py` files for the C4 witness. -/
def fetchFive : String → Except Err FileInfo := fun path =>
  if path = "f1.py" then .ok ⟨"none", "AAAA"⟩
  else if path = "f2.py" then .ok ⟨"none", "BBBB"⟩
  else if path = "f3.py" then .ok ⟨"none", "CCCC"⟩
  else if path = "f4.py" then .ok ⟨"none", "DDDD"⟩
  else if path = "f5.py" then .ok ⟨"none", "EEEE"⟩
  else .error (.upstream 404)

def mockFive : Mock :=
  ⟨fetchFive, decodeFail,
    .ok [.file "f1.py" "f1.py", .file "f2.py" "f2.py", .file "f3.py" "f3.py",
      .file "f4.py" "f4.py", .file "f5.py" "f5.py"]⟩

def budTwo : Budgets := ⟨2, 100, 10000⟩

/-- C4 witness: five eligible candidates, `max_files = 2`, cap not hit:
exactly the first two files are embedded. -/
theorem c4_max_files_cap_witness :
    retrieve_github_repo_info mockFive "https://github.com/acme/widgets" budTwo =
      .ok (readme_block mockFive budTwo ++ "Directory Structure:\n" ++
        "f1.py\nf2.py\nf3.py\nf4.py\nf5.py\n" ++ "\n" ++
        file_snippet budTwo 0 "f1.py" "AAAA" ++ file_snippet budTwo 0 "f2.py" "BBBB") ∧
    (filesLoop mockFive budTwo
      [(0, "f1.py"), (0, "f2.py"), (0, "f3.py"), (0, "f4.py"), (0, "f5.py")]
      (readme_block mockFive budTwo ++ "Directory Structure:\n" ++
        "f1.py\nf2.py\nf3.py\nf4.py\nf5.py\n" ++ "\n") 0).2 = 2 :=
  c4_max_files_cap mockFive budTwo "https://github.com/acme/widgets" ("acme", "widgets")
    "f1.py\nf2.py\nf3.py\nf4.py\nf5.py\n" 0 0 0 0 0 "f1.py" "f2.py" "f3.py" "f4.py" "f5.py"
    [] "AAAA" "BBBB" rfl (by decide)
    (by simp only [mockFive, build_directory_tree, walkEntries, Option.getD] <;> decide)
    (by decide) (by decide) (by decide)

/-- C5: a decoded body longer than `max_file_chars` (README or candidate
file) is embedded as exactly its first `max_file_chars` characters
followed by the truncation marker. -/
theorem c5_truncation_marker (m : Mock) (b : Budgets) (readme_content : String)
    (hr : fetch_and_decode m "README.md" = .ok readme_content)
    (hlen : b.max_file_chars < readme_content.length) :
    readme_block m b = "README.md:\n```\n" ++
      (pyTake readme_content b.max_file_chars ++ "\n... [truncated]\n") ++ "\n```\n\n" ∧
    (pyTake readme_content b.max_file_chars).length = b.max_file_chars ∧
    ∀ (indent : Nat) (path content : String), b.max_file_chars < content.length →
      file_snippet b indent path content =
        "\n" ++ pyMul "    " indent ++ path ++ ":\n" ++ pyMul "    " indent ++ "```\n" ++
          (pyTake content b.max_file_chars ++ "\n... [truncated]\n") ++ "\n" ++
          pyMul "    " indent ++ "```\n" ∧
      (pyTake content b.max_file_chars).length = b.max_file_chars := by
  refine ⟨?_, ?_, ?_⟩
  · simp only [readme_block, hr, truncate_file_content, if_pos hlen]
  · rw [pyTake_length]
    omega
  · intro indent path content hc
    refine ⟨?_, ?_⟩
    · simp only [file_snippet, truncate_file_content, if_pos hc]
    · rw [pyTake_length]
      omega

/-- A repository whose README decodes to a 50-character body. -/
def mockFifty : Mock :=
  ⟨fun path =>
    if path = "README.md" then
      .ok ⟨"none", "01234567890123456789012345678901234567890123456789"⟩
    else .error (.upstream 404),
    decodeFail, .ok []⟩

def budTen : Budgets := ⟨80, 10, 200000⟩

/-- C5 witness: `max_file_chars = 10` and a 50-character body embed exactly
the first 10 characters plus the marker. -/
theorem c5_truncation_marker_witness :
    readme_block mockFifty budTen = "README.md:\n```\n" ++
      (pyTake "01234567890123456789012345678901234567890123456789" 10 ++
        "\n... [truncated]\n") ++ "\n```\n\n" ∧
    (pyTake "01234567890123456789012345678901234567890123456789" 10).length = 10 ∧
    pyTake "01234567890123456789012345678901234567890123456789" 10 = "0123456789" := by
  have h := c5_truncation_marker mockFifty budTen
    "01234567890123456789012345678901234567890123456789" (by decide) (by decide)
  exact ⟨h.1, h.2.1, by decide⟩

/-- C10: truncation uses a strict `>` comparison, so a decoded body of
exactly `max_file_chars` characters (README or candidate file) is embedded
verbatim, with no truncation marker. -/
theorem c10_exact_length_not_truncated (m : Mock) (b : Budgets) (readme_content : String)
    (hr : fetch_and_decode m "README.md" = .ok readme_content)
    (hlen : readme_content.length = b.max_file_chars) :
    readme_block m b = "README.md:\n```\n" ++ readme_content ++ "\n```\n\n" ∧
    ∀ (indent : Nat) (path content : String), content.length = b.max_file_chars →
      file_snippet b indent path content =
        "\n" ++ pyMul "    " indent ++ path ++ ":\n" ++ pyMul "    " indent ++ "```\n" ++
          content ++ "\n" ++ pyMul "    " indent ++ "```\n" := by
  constructor
  · simp only [readme_block, hr, truncate_file_content, if_neg (by omega : ¬ b.max_file_chars < readme_content.length)]
  · intro indent path content hc
    simp only [file_snippet, truncate_file_content,
      if_neg (by omega : ¬ b.max_file_chars < content.length)]

/-- A repository whose README decodes to exactly 10 characters. -/
def mockTen : Mock :=
  ⟨fun path =>
    if path = "README.md" then .ok ⟨"none", "0123456789"⟩ else .error (.upstream 404),
    decodeFail, .ok []⟩

/-- C10 witness: a body of exactly `max_file_chars = 10` characters is
embedded verbatim (no marker) at both call sites. -/
theorem c10_exact_length_not_truncated_witness :
    readme_block mockTen budTen = "README.md:\n```\n" ++ "0123456789" ++ "\n```\n\n" ∧
    file_snippet budTen 1 "f.py" "0123456789" =
      "\n" ++ pyMul "    " 1 ++ "f.py" ++ ":\n" ++ pyMul "    " 1 ++ "```\n" ++
        "0123456789" ++ "\n" ++ pyMul "    " 1 ++ "```\n" := by
  have h := c10_exact_length_not_truncated mockTen budTen "0123456789" (by decide) (by decide)
  exact ⟨h.1, h.2 1 "f.py" "0123456789" (by decide)⟩

/-- C6: failures during optional enrichment never abort the build: a failed
README fetch/decode yields the fixed placeholder line and the build still
succeeds (first conjunct), and a failed candidate-file fetch/decode skips
exactly that file, leaving the loop as if the candidate were absent
(second conjunct). -/
theorem c6_enrichment_failures_tolerated (m : Mock) (b : Budgets) (url : String)
    (pr : String × String) (directory_tree : String) (fps : List (Nat × String)) (e : Err)
    (hparse : parse_github_url url = .ok pr)
    (hreadme : fetch_and_decode m "README.md" = .error e)
    (hwalk : build_directory_tree m.root 0 none = .ok (directory_tree, fps)) :
    retrieve_github_repo_info m url b =
      .ok ((filesLoop m b fps
        ("README.md: Not found or error fetching README\n\n" ++ "Directory Structure:\n" ++
          directory_tree ++ "\n") 0).1) ∧
    ∀ (indent n : Nat) (path s : String) (rest : List (Nat × String)) (e' : Err),
      fetch_and_decode m path = .error e' →
      filesLoop m b ((indent, path) :: rest) s n = filesLoop m b rest s n := by
  constructor
  · simp only [retrieve_github_repo_info, hparse, hwalk, readme_block, hreadme]
  · intro indent n path s rest e' hf
    rw [filesLoop_cons]
    by_cases hstop : b.max_files ≤ n ∨ b.total_chars_cap ≤ s.length
    · rw [if_pos hstop]
      cases rest with
      | nil => rw [filesLoop_nil]
      | cons hd tl =>
        obtain ⟨i2, p2⟩ := hd
        rw [filesLoop_cons, if_pos hstop]
    · rw [if_neg hstop]
      simp only [hf]

/-- Repository for the C6 witness: README fails, `bad.py` fails, `ok.py`
fetches fine. -/
def fetchMixed : String → Except Err FileInfo := fun path =>
  if path = "ok.py" then .ok ⟨"none", "GOOD"⟩ else .error (.upstream 404)

def mockMixed : Mock :=
  ⟨fetchMixed, decodeFail, .ok [.file "bad.py" "bad.py", .file "ok.py" "ok.py"]⟩

/-- C6 witness: with a failing README and a failing candidate, the build
still succeeds with the placeholder line, and the failing candidate is
skipped while the healthy one is kept. -/
theorem c6_enrichment_failures_tolerated_witness :
    retrieve_github_repo_info mockMixed "https://github.com/acme/widgets" default_budgets =
      .ok ((filesLoop mockMixed default_budgets [(0, "bad.py"), (0, "ok.py")]
        ("README.md: Not found or error fetching README\n\n" ++ "Directory Structure:\n" ++
          "bad.py\nok.py\n" ++ "\n") 0).1) ∧
    filesLoop mockMixed default_budgets [(0, "bad.py"), (0, "ok.py")]
        ("README.md: Not found or error fetching README\n\nDirectory Structure:\nbad.py\nok.py\n\n")
        0 =
      filesLoop mockMixed default_budgets [(0, "ok.py")]
        ("README.md: Not found or error fetching README\n\nDirectory Structure:\nbad.py\nok.py\n\n")
        0 := by
  have h := c6_enrichment_failures_tolerated mockMixed default_budgets
    "https://github.com/acme/widgets" ("acme", "widgets") "bad.py\nok.py\n"
    [(0, "bad.py"), (0, "ok.py")] (.upstream 404) (by decide) (by decide)
    (by simp only [mockMixed, build_directory_tree, walkEntries, Option.getD] <;> decide)
  exact ⟨h.1, h.2 0 0 "bad.py"
    "README.md: Not found or error fetching README\n\nDirectory Structure:\nbad.py\nok.py\n\n"
    [(0, "ok.py")] (.upstream 404) (by decide)⟩

/-- C2 counterexample: on `https://github.com/acme//widgets` (path segments
`["acme", "", "widgets"]`, whose first two non-empty segments are
`"acme"` and `"widgets"`), the parser returns `("acme", "")` — the first
two raw split segments — not the first two non-empty segments. -/
theorem c2_counterexample :
    parse_github_url "https://github.com/acme//widgets" = .ok ("acme", "") ∧
    (("acme", "") : String × String) ≠ ("acme", "widgets") := by
  constructor
  · decide
  · decide

/-- C2 (amended): parsing fails with `InvalidReference` exactly when the
stripped URL path has fewer than two non-empty slash-separated segments;
otherwise it returns the first two raw segments of the split (which may
include an empty segment between doubled slashes), stripping a trailing
`.git` from the repo segment. -/
theorem c2_parse_contract (url : String) :
    (parse_github_url url = .error (.invalidReference "Invalid GitHub URL provided!") ↔
      ((pySplitChar '/' (pyStripList (· == '/') (urlparse_path url).data)).filter
          (fun s => !s.isEmpty)).length < 2) ∧
    (2 ≤ (pySplit '/' (String.mk (pyStripList (· == '/') (urlparse_path url).data))).length →
      parse_github_url url =
        .ok ((pySplit '/' (String.mk (pyStripList (· == '/') (urlparse_path url).data))).getD 0 "",
          if pyEndsWith
              ((pySplit '/' (String.mk (pyStripList (· == '/') (urlparse_path url).data))).getD 1 "")
              ".git" then
            pyTake
              ((pySplit '/' (String.mk (pyStripList (· == '/') (urlparse_path url).data))).getD 1 "")
              (((pySplit '/' (String.mk (pyStripList (· == '/')
                (urlparse_path url).data))).getD 1 "").length - 4)
          else
            (pySplit '/' (String.mk (pyStripList (· == '/') (urlparse_path url).data))).getD 1
              "")) := by
  have hlen : (pySplit '/' (String.mk (pyStripList (· == '/') (urlparse_path url).data))).length =
      (pySplitChar '/' (pyStripList (· == '/') (urlparse_path url).data)).length := by
    simp [pySplit]
  have hh : (pyStripList (· == '/') (urlparse_path url).data).head? ≠ some '/' := by
    intro h
    have := pyStripList_head (· == '/') (urlparse_path url).data '/' h
    simp at this
  have hl : (pyStripList (· == '/') (urlparse_path url).data).getLast? ≠ some '/' := by
    intro h
    have := pyStripList_getLast (· == '/') (urlparse_path url).data '/' h
    simp at this
  constructor
  · constructor
    · intro herr
      by_contra hge
      push_neg at hge
      have hle := List.length_filter_le (fun s => !s.isEmpty)
        (pySplitChar '/' (pyStripList (· == '/') (urlparse_path url).data))
      have h2 : 2 ≤ (pySplit '/'
          (String.mk (pyStripList (· == '/') (urlparse_path url).data))).length := by
        omega
      simp only [parse_github_url, if_pos h2] at herr
      exact absurd herr (by simp)
    · intro hfilt
      have h2 : ¬ 2 ≤ (pySplit '/'
          (String.mk (pyStripList (· == '/') (urlparse_path url).data))).length := by
        intro h2
        have := filter_nonempty_two '/' (pyStripList (· == '/') (urlparse_path url).data)
          hh hl (by omega)
        omega
      simp only [parse_github_url, if_neg h2]
  · intro h2
    simp only [parse_github_url, if_pos h2]

/-- C2 witness: the `.git`-stripping example and a failing one-segment URL,
via the amended contract. -/
theorem c2_parse_contract_witness :
    parse_github_url "https://github.com/acme/widgets.git" = .ok ("acme", "widgets") ∧
    parse_github_url "https://github.com" =
      .error (.invalidReference "Invalid GitHub URL provided!") := by
  constructor
  · exact ((c2_parse_contract "https://github.com/acme/widgets.git").2 (by decide)).trans
      (by decide)
  · exact ((c2_parse_contract "https://github.com").1).mpr (by decide)

/-- A transport that always answers HTTP 204 with an empty body. -/
def get204 : String → List (String × String) → HttpResponse := fun _ _ => ⟨204, .null⟩

/-- C8 counterexample: on a 204 (non-200, non-error) response,
`raise_for_status()` does nothing and `fetch_repo_content` falls through
returning `None` instead of failing with an `UpstreamError`; and a
supplied-but-empty credential (falsy in Python) produces no
`Authorization` header. -/
theorem c8_counterexample :
    fetch_repo_content get204 "acme" "widgets" "README.md" none = .ok none ∧
    request_headers (some "") = [("Accept", "application/vnd.github.v3+json")] := by
  constructor
  · rfl
  · rfl

/-- C8 (amended): `fetch_repo_content` returns the parsed JSON body on
status 200, fails with an `UpstreamError` carrying the HTTP status on
4xx/5xx responses, and returns `None` on any other status; it always sends
the versioned-JSON `Accept` header and sends a bearer `Authorization`
header exactly when a non-empty credential is supplied. -/
theorem c8_fetcher_contract (httpGet : String → List (String × String) → HttpResponse)
    (owner repo path : String) (token : Option String) :
    ((httpGet (contents_url owner repo path) (request_headers token)).status_code = 200 →
      fetch_repo_content httpGet owner repo path token =
        .ok (some (httpGet (contents_url owner repo path) (request_headers token)).json)) ∧
    (∀ sc : Nat,
      (httpGet (contents_url owner repo path) (request_headers token)).status_code = sc →
      400 ≤ sc → sc < 600 →
      fetch_repo_content httpGet owner repo path token = .error (.upstream sc)) ∧
    (∀ sc : Nat,
      (httpGet (contents_url owner repo path) (request_headers token)).status_code = sc →
      sc ≠ 200 → sc < 400 ∨ 600 ≤ sc →
      fetch_repo_content httpGet owner repo path token = .ok none) ∧
    ("Accept", "application/vnd.github.v3+json") ∈ request_headers token ∧
    (∀ t : String, token = some t → t ≠ "" →
      ("Authorization", "Bearer " ++ t) ∈ request_headers token) ∧
    (pyTruthy token = false →
      request_headers token = [("Accept", "application/vnd.github.v3+json")]) := by
  refine ⟨?_, ?_, ?_, ?_, ?_, ?_⟩
  · intro h200
    simp only [fetch_repo_content, if_pos h200]
  · intro sc hsc h4 h6
    have hne : ¬ (httpGet (contents_url owner repo path)
        (request_headers token)).status_code = 200 := by omega
    simp only [fetch_repo_content, if_neg hne, hsc,
      if_pos (show 400 ≤ sc ∧ sc < 600 from ⟨h4, h6⟩)]
    rw [if_neg (show ¬ sc = 200 by omega)]
  · intro sc hsc hne hout
    have hne' : ¬ (httpGet (contents_url owner repo path)
        (request_headers token)).status_code = 200 := by omega
    have hnoraise : ¬ (400 ≤ sc ∧ sc < 600) := by omega
    simp only [fetch_repo_content, if_neg hne', hsc, if_neg hnoraise]
    rw [if_neg hne]
  · unfold request_headers
    split <;> simp
  · intro t ht htne
    subst ht
    have htr : pyTruthy (some t) = true := by
      simp only [pyTruthy, bne_iff_ne, ne_eq]
      intro hzero
      apply htne
      cases t with
      | mk d =>
        cases d with
        | nil => rfl
        | cons a l => exact absurd hzero (by simp [String.length])
    simp [request_headers, htr]
  · intro hfalse
    simp [request_headers, hfalse]

/-- C8 witness: concrete 200, 404 and header instances of the amended
fetcher contract. -/
theorem c8_fetcher_contract_witness :
    fetch_repo_content (fun _ _ => ⟨200, .str "body"⟩) "acme" "widgets" "" none =
      .ok (some (.str "body")) ∧
    fetch_repo_content (fun _ _ => ⟨404, .null⟩) "acme" "widgets" "" none =
      .error (.upstream 404) ∧
    ("Authorization", "Bearer " ++ "tok") ∈ request_headers (some "tok") := by
  refine ⟨?_, ?_, ?_⟩
  · exact (c8_fetcher_contract (fun _ _ => ⟨200, .str "body"⟩) "acme" "widgets" "" none).1 rfl
  · exact (c8_fetcher_contract (fun _ _ => ⟨404, .null⟩) "acme" "widgets" "" none).2.1 404 rfl
      (by decide) (by decide)
  · exact (c8_fetcher_contract (fun _ _ => ⟨200, .null⟩) "acme" "widgets" "" (some "tok")).2.2.2.2.1
      "tok" rfl (by decide)
